import Mathlib

/-!
Verification of the F1 Data Analysis & Strategy Simulator.

Shallow embedding of the strategy-simulation and race-analysis code
(`RaceStrategySimulator.py`, `RaceAnalysis.py`).  Pandas tables become
lists of records, durations become rationals (seconds), the pandas
`Series.mean` of an empty series (NaN) becomes `none`, Python dicts
become association lists, and the interactive `input()` loop becomes a
fuel-bounded interpreter over a list of pre-parsed user input lines.
`np.random.uniform(-0.005, 0.005)` draws are supplied as an explicit
stream `draws : Nat → ℚ`, one fresh index per call site execution.
-/

namespace F1Sim

/-- One row of the session lap table (`session.laps`): columns
`Driver`, `LapNumber`, `LapTime` (seconds), `Compound`. -/
structure LapRecord where
  driver : String
  lapNumber : Nat
  lapTime : ℚ
  compound : String
deriving DecidableEq

/-- One row of the session results table (`session.results`): columns
`Abbreviation`, `Position`, and `Time`, the latter already parsed by
`pd.to_timedelta` (`none` models an unparseable string, whose parse
raises `ValueError`). -/
structure ResultRow where
  abbreviation : String
  position : Nat
  time : Option ℚ
deriving DecidableEq

/-- Python `str.upper()` on the ASCII strings the program handles:
upper-case every character. -/
def str_upper (s : String) : String :=
  ⟨s.data.map Char.toUpper⟩

/-- `pandas.Series.mean` over a column of durations: `none` on an empty
series (pandas yields NaN there). -/
def series_mean (xs : List ℚ) : Option ℚ :=
  if xs.isEmpty then none else some (xs.sum / xs.length)

/-- `RaceStrategySimulator.compound_performance_factor`
(RaceStrategySimulator.py lines 27-33), a Python dict; `none` models a
key miss, which in Python raises `KeyError`. -/
def compound_performance_factor (c : String) : Option ℚ :=
  if c = "SOFT" then some 1.018
  else if c = "MEDIUM" then some 1.038
  else if c = "HARD" then some 1.058
  else if c = "WET" then some 1.098
  else if c = "INTERMEDIATE" then some 1.078
  else none

/-- `self.total_laps = session.laps['LapNumber'].max()`
(RaceStrategySimulator.py line 40): the maximum lap number over the
whole lap table, `0` for an empty table. -/
def total_laps (lap_data : List LapRecord) : Nat :=
  (lap_data.map (·.lapNumber)).foldr max 0

/-- `RaceStrategySimulator.did_driver_finish`
(RaceStrategySimulator.py lines 86-91): the driver's row count in the
lap table equals the race's total lap count. -/
def did_driver_finish (lap_data : List LapRecord) (total : Nat) (code : String) : Bool :=
  (lap_data.filter (fun r => r.driver == code)).length == total

/-- The filter `lap_data[(lap_data['Driver'] == driver_code) &
(lap_data['Compound'].str.upper() == compound_upper)]`
(RaceStrategySimulator.py lines 104-105). -/
def driver_compound_laps (lap_data : List LapRecord) (code c_upper : String) :
    List LapRecord :=
  lap_data.filter (fun r => r.driver == code && str_upper r.compound == c_upper)

/-- The loop body of `calculate_driver_averages`
(RaceStrategySimulator.py lines 103-111): the value stored for one
upper-cased compound.  If the driver has laps on the compound it is the
mean of those lap times; otherwise it is
`lap_data['LapTime'].mean()` — the mean over the entire *unfiltered*
lap table, i.e. all drivers' laps. -/
def compound_average (lap_data : List LapRecord) (code c_upper : String) : Option ℚ :=
  let compound_laps := driver_compound_laps lap_data code c_upper
  if compound_laps.isEmpty then series_mean (lap_data.map (·.lapTime))
  else series_mean (compound_laps.map (·.lapTime))

/-- `RaceStrategySimulator.calculate_driver_averages`
(RaceStrategySimulator.py lines 94-113).  The Python dict keyed by the
upper-cased compound is an association list with one entry per stint of
the plan; duplicate keys carry identical values (the computed average
depends only on the key), so first-match lookup agrees with the dict. -/
def calculate_driver_averages (lap_data : List LapRecord)
    (strategy : List (String × Int)) (code : String) :
    List (String × Option ℚ) :=
  strategy.map (fun s => (str_upper s.1, compound_average lap_data code (str_upper s.1)))

/-- One pre-parsed line of interactive input to `input_strategy`:
`num n` is a line that parses as an integer, `stint c l` a line of the
form `"<compound> <integer>"`, and `bad` a line that parses as neither
(raising `ValueError` at whichever prompt consumes it). -/
inductive UserLine where
  | num (n : Int)
  | stint (c : String) (laps : Int)
  | bad
deriving DecidableEq

/-- Outcome of the stint-collecting `for` loop of `input_strategy`:
`done plan rest` when all slots were filled, `err rest` when a line
raised `ValueError` (propagating to the outer handler), `out` when the
modelled input ran dry. -/
inductive ReadRes where
  | done (plan : List (String × Int)) (rest : List UserLine)
  | err (rest : List UserLine)
  | out
deriving DecidableEq

/-- The inner loops of `RaceStrategySimulator.input_strategy`
(RaceStrategySimulator.py lines 57-69): fill `slots` stint slots from
the input stream.  A stint line with `laps <= 0` re-prompts the same
slot; a valid stint appends `(compound.upper(), laps)`; any other line
raises `ValueError`, aborting the whole attempt. -/
def read_stints : Nat → List (String × Int) → List UserLine → ReadRes
  | 0, acc, inp => .done acc inp
  | _ + 1, _, [] => .out
  | slots + 1, acc, line :: rest =>
    match line with
    | .stint c laps =>
      if laps ≤ 0 then read_stints (slots + 1) acc rest
      else read_stints slots (acc ++ [(str_upper c, laps)]) rest
    | _ => .err rest

/-- `RaceStrategySimulator.input_strategy`
(RaceStrategySimulator.py lines 45-82) as a fuel-bounded interpreter:
each outer `while True` iteration reads a stint count (a non-integer
line raises `ValueError` and restarts), rejects counts below 2, collects
the stints, and accepts the plan exactly when its lap sum equals
`total`; on a mismatch the whole plan is re-entered from the remaining
input.  `none` means no plan was accepted within the given fuel/input
(the Python loop would still be running). -/
def input_strategy (total : Int) : Nat → List UserLine → Option (List (String × Int))
  | 0, _ => none
  | _ + 1, [] => none
  | fuel + 1, line :: rest =>
    match line with
    | .num n =>
      if n < 2 then input_strategy total fuel rest
      else
        match read_stints n.toNat [] rest with
        | .done plan rest2 =>
          if (plan.map (·.2)).sum = total then some plan
          else input_strategy total fuel rest2
        | .err rest2 => input_strategy total fuel rest2
        | .out => none
    | _ => input_strategy total fuel rest

/-- Outcome of `simulate_lap_times`: `ok times` is the returned list of
simulated lap durations; `keyError c` models the uncaught `KeyError`
raised by `self.compound_performance_factor[compound_upper]` on an
unknown compound; `nanTimes` marks the run whose baselines are NaN
(possible only when the whole lap table is empty, so `series_mean`
gave `none`) — Python would go on producing NaN lap times, which ℚ
cannot represent, so the embedding flags the run instead. -/
inductive SimOut where
  | ok (times : List ℚ)
  | keyError (c : String)
  | nanTimes
deriving DecidableEq

/-- `lap_time_with_deviation = base_lap_time * compound_factor + deviation`
(RaceStrategySimulator.py line 132). -/
def lap_time_with_deviation (base factor dev : ℚ) : ℚ :=
  base * factor + dev

/-- The inner `for _ in range(laps)` loop of `simulate_lap_times`
(RaceStrategySimulator.py lines 129-133): one fresh uniform draw per
individual planned lap, `deviation = draw * base_lap_time`, lap `j` of
the stint consuming stream index `idx + j`. -/
def simulate_stint_laps (base factor : ℚ) (laps : Nat) (draws : Nat → ℚ) (idx : Nat) :
    List ℚ :=
  (List.range laps).map (fun j => lap_time_with_deviation base factor (draws (idx + j) * base))

/-- The per-stint loop of `simulate_lap_times`
(RaceStrategySimulator.py lines 123-139): fetch the stint's baseline
from the averages dict (present for every compound of the plan), look
up the compound factor (`KeyError` on an unknown compound), sample each
lap; the dict-miss branch (lines 134-139) substitutes a 90-second
default with the same deviation and no factor. -/
def simulate_stints (avgs : List (String × Option ℚ)) (strategy : List (String × Int))
    (draws : Nat → ℚ) (idx : Nat) : SimOut :=
  match strategy with
  | [] => .ok []
  | (c, laps) :: rest =>
    let cU := str_upper c
    match avgs.lookup cU with
    | some bOpt =>
      match compound_performance_factor cU with
      | none => .keyError cU
      | some f =>
        match bOpt with
        | none => .nanTimes
        | some b =>
          match simulate_stints avgs rest draws (idx + laps.toNat) with
          | .ok ts => .ok (simulate_stint_laps b f laps.toNat draws idx ++ ts)
          | .keyError c2 => .keyError c2
          | .nanTimes => .nanTimes
    | none =>
      match simulate_stints avgs rest draws (idx + laps.toNat) with
      | .ok ts =>
        .ok ((List.range laps.toNat).map (fun j => 90 + draws (idx + j) * 90) ++ ts)
      | .keyError c2 => .keyError c2
      | .nanTimes => .nanTimes

/-- `RaceStrategySimulator.simulate_lap_times`
(RaceStrategySimulator.py lines 116-140): a driver who did not finish
yields the empty list; otherwise the plan is sampled stint by stint
against the driver's computed averages. -/
def simulate_lap_times (lap_data : List LapRecord) (total : Nat)
    (strategy : List (String × Int)) (code : String) (draws : Nat → ℚ) : SimOut :=
  if ¬ did_driver_finish lap_data total code then .ok []
  else simulate_stints (calculate_driver_averages lap_data strategy code) strategy draws 0

/-- `RaceAnalysis.get_winner_race_time` (RaceAnalysis.py lines 147-159):
the `Time` of the first results row with `Position == 1`, `none` when
there is no such row or its time is unparseable (both print a message
and return `None`). -/
def get_winner_race_time (results : List ResultRow) : Option ℚ :=
  match results.filter (fun r => r.position == 1) with
  | [] => none
  | w :: _ => w.time

/-- Outcome of `get_driver_race_time`: `ok` a returned duration,
`failure` a caught error path that prints a message and returns `None`,
`crash` an uncaught exception escaping the method. -/
inductive RaceTimeRes where
  | ok (t : ℚ)
  | failure
  | crash
deriving DecidableEq

/-- `RaceAnalysis.get_driver_race_time` (RaceAnalysis.py lines 117-144).
Line 119 runs `self.results[self.results['Position'] == 1].iloc[0]`
before any guard, so a results table with no winner row raises an
uncaught `IndexError` (`crash`).  Otherwise: an unavailable winner time
is a reported failure; the winner's own time is returned directly; any
other driver's time is the winner's time plus the driver's recorded
gap, with a missing driver row or an unparseable gap (`ValueError`,
caught) reported as failures. -/
def get_driver_race_time (results : List ResultRow) (code : String) : RaceTimeRes :=
  match results.filter (fun r => r.position == 1) with
  | [] => .crash
  | w :: _ =>
    match get_winner_race_time results with
    | none => .failure
    | some wt =>
      if code = w.abbreviation then .ok wt
      else
        match results.filter (fun r => r.abbreviation == code) with
        | [] => .failure
        | d :: _ =>
          match d.time with
          | none => .failure
          | some gap => .ok (wt + gap)

/-- Outcome of one `run_simulation` call. -/
inductive RunOutcome where
  | noData
  | noDriver
  | didNotFinish
  | noAcceptance
  | completed (plan : List (String × Int)) (sim : SimOut)
deriving DecidableEq

/-- `RaceStrategySimulator.run_simulation`
(RaceStrategySimulator.py lines 217-238): require loaded analysis data,
a resolved driver code, then the completion gate
(`did_driver_finish`); only afterwards is the strategy entered and the
lap sampling run.  Both the gate and the strategy validation use the
same `self.total_laps`, computed by `load_and_initialize_data` as
`total_laps lap_data`. -/
def run_simulation (analysisLoaded : Bool) (driver : Option String)
    (lap_data : List LapRecord) (inp : List UserLine) (fuel : Nat)
    (draws : Nat → ℚ) : RunOutcome :=
  if ¬ analysisLoaded then .noData
  else
    match driver with
    | none => .noDriver
    | some code =>
      if ¬ did_driver_finish lap_data (total_laps lap_data) code then .didNotFinish
      else
        match input_strategy (total_laps lap_data : Nat) fuel inp with
        | none => .noAcceptance
        | some plan =>
          .completed plan (simulate_lap_times lap_data (total_laps lap_data) plan code draws)

/-- A two-driver lap table: VER has one 80-second SOFT lap, HAM one
100-second SOFT lap; nobody has MEDIUM laps. -/
def C1data : List LapRecord :=
  [⟨"VER", 1, 80, "SOFT"⟩, ⟨"HAM", 1, 100, "SOFT"⟩]

/-- A plan requesting SOFT and MEDIUM for driver VER. -/
def C1strat : List (String × Int) :=
  [("SOFT", 2), ("MEDIUM", 3)]

/-- A lap table in which VER has completed all 5 laps of the race. -/
def C3data : List LapRecord :=
  [⟨"VER", 1, 80, "SOFT"⟩, ⟨"VER", 2, 80, "SOFT"⟩, ⟨"VER", 3, 80, "SOFT"⟩,
   ⟨"VER", 4, 80, "SOFT"⟩, ⟨"VER", 5, 80, "SOFT"⟩]

/-- A results table: HAM wins in 1:30:00.000 (5400 s); VER is second
with recorded gap +12.345 s. -/
def C5results : List ResultRow :=
  [⟨"HAM", 1, some 5400⟩, ⟨"VER", 2, some 12.345⟩]

/-- A results table with no row at position 1. -/
def C6results : List ResultRow :=
  [⟨"VER", 2, some 5000⟩]

/-- A lap table for a 3-lap race: driver WIN completed laps 1-3,
driver DNF stopped after lap 2. -/
def C7data : List LapRecord :=
  [⟨"WIN", 1, 80, "SOFT"⟩, ⟨"WIN", 2, 80, "SOFT"⟩, ⟨"WIN", 3, 80, "SOFT"⟩,
   ⟨"DNF", 1, 82, "SOFT"⟩, ⟨"DNF", 2, 82, "SOFT"⟩]

/-- The input lines of a fully-typed strategy plan: one well-formed
stint line per stint of the plan. -/
def stint_lines (plan : List (String × Int)) : List UserLine :=
  plan.map (fun s => UserLine.stint s.1 s.2)

/-- The plan as `input_strategy` stores it: compounds upper-cased,
lap counts untouched (RaceStrategySimulator.py line 68). -/
def upper_plan (plan : List (String × Int)) : List (String × Int) :=
  plan.map (fun s => (str_upper s.1, s.2))

lemma upper_plan_sum (plan : List (String × Int)) :
    ((upper_plan plan).map (·.2)).sum = (plan.map (·.2)).sum := by
  induction plan with
  | nil => rfl
  | cons s tail ih =>
    have hc : upper_plan (s :: tail) = (str_upper s.1, s.2) :: upper_plan tail := rfl
    rw [hc, List.map_cons, List.sum_cons, ih, List.map_cons, List.sum_cons]

lemma read_stints_done_length (inp : List UserLine) :
    ∀ (slots : Nat) (acc plan : List (String × Int)) (rest : List UserLine),
      read_stints slots acc inp = .done plan rest → plan.length = acc.length + slots := by
  induction inp with
  | nil =>
    intro slots acc plan rest h
    match slots with
    | 0 => simp only [read_stints, ReadRes.done.injEq] at h; simp [h.1]
    | _ + 1 => simp only [read_stints] at h; exact ReadRes.noConfusion h
  | cons line rest0 ih =>
    intro slots acc plan rest h
    match slots with
    | 0 => simp only [read_stints, ReadRes.done.injEq] at h; simp [h.1]
    | slots + 1 =>
      match line with
      | .num n => simp only [read_stints] at h; exact ReadRes.noConfusion h
      | .bad => simp only [read_stints] at h; exact ReadRes.noConfusion h
      | .stint c laps =>
        simp only [read_stints] at h
        by_cases hl : laps ≤ 0
        · rw [if_pos hl] at h
          exact ih _ _ _ _ h
        · rw [if_neg hl] at h
          have := ih _ _ _ _ h
          simp only [List.length_append, List.length_cons, List.length_nil] at this
          omega

lemma read_stints_done_pos (inp : List UserLine) :
    ∀ (slots : Nat) (acc plan : List (String × Int)) (rest : List UserLine),
      (∀ s ∈ acc, 0 < s.2) →
      read_stints slots acc inp = .done plan rest → ∀ s ∈ plan, 0 < s.2 := by
  induction inp with
  | nil =>
    intro slots acc plan rest hacc h
    match slots with
    | 0 => simp only [read_stints, ReadRes.done.injEq] at h; exact h.1 ▸ hacc
    | _ + 1 => simp only [read_stints] at h; exact ReadRes.noConfusion h
  | cons line rest0 ih =>
    intro slots acc plan rest hacc h
    match slots with
    | 0 => simp only [read_stints, ReadRes.done.injEq] at h; exact h.1 ▸ hacc
    | slots + 1 =>
      match line with
      | .num n => simp only [read_stints] at h; exact ReadRes.noConfusion h
      | .bad => simp only [read_stints] at h; exact ReadRes.noConfusion h
      | .stint c laps =>
        simp only [read_stints] at h
        by_cases hl : laps ≤ 0
        · rw [if_pos hl] at h
          exact ih _ _ _ _ hacc h
        · rw [if_neg hl] at h
          refine ih _ _ _ _ ?_ h
          intro s hs
          rcases List.mem_append.1 hs with hs | hs
          · exact hacc s hs
          · simp only [List.mem_singleton] at hs
            subst hs
            omega

lemma read_stints_clean (plan : List (String × Int)) :
    ∀ (acc : List (String × Int)) (rest : List UserLine), (∀ s ∈ plan, 0 < s.2) →
      read_stints plan.length acc (stint_lines plan ++ rest) =
        .done (acc ++ upper_plan plan) rest := by
  induction plan with
  | nil => intro acc rest _; simp [read_stints, stint_lines, upper_plan]
  | cons s tail ih =>
    intro acc rest hpos
    obtain ⟨c, l⟩ := s
    have hl : ¬ (l ≤ 0) := by
      have := hpos (c, l) (by simp)
      omega
    have h2 := ih (acc ++ [(str_upper c, l)]) rest
      (fun s hs => hpos s (List.mem_cons_of_mem _ hs))
    show read_stints (tail.length + 1) acc (UserLine.stint c l :: (stint_lines tail ++ rest)) =
      ReadRes.done (acc ++ upper_plan ((c, l) :: tail)) rest
    simp only [read_stints]
    rw [if_neg hl, h2]
    have hc : upper_plan ((c, l) :: tail) = (str_upper c, l) :: upper_plan tail := rfl
    rw [hc, List.append_assoc]
    rfl

lemma input_strategy_sum (total : Int) :
    ∀ (fuel : Nat) (inp : List UserLine) (plan : List (String × Int)),
      input_strategy total fuel inp = some plan → (plan.map (·.2)).sum = total := by
  intro fuel
  induction fuel with
  | zero => intro inp plan h; exact Option.noConfusion h
  | succ fuel ih =>
    intro inp plan h
    match inp with
    | [] => exact Option.noConfusion h
    | line :: rest =>
      match line with
      | .bad => exact ih rest plan h
      | .stint c l => exact ih rest plan h
      | .num n =>
        simp only [input_strategy] at h
        by_cases hn : n < 2
        · rw [if_pos hn] at h
          exact ih rest plan h
        · rw [if_neg hn] at h
          split at h
          next plan2 rest2 hr =>
            by_cases hs : (plan2.map (·.2)).sum = total
            · rw [if_pos hs] at h
              cases h
              exact hs
            · rw [if_neg hs] at h
              exact ih rest2 plan h
          next rest2 hr => exact ih rest2 plan h
          next hr => exact Option.noConfusion h

lemma input_strategy_shape (total : Int) :
    ∀ (fuel : Nat) (inp : List UserLine) (plan : List (String × Int)),
      input_strategy total fuel inp = some plan →
      2 ≤ plan.length ∧ ∀ s ∈ plan, 0 < s.2 := by
  intro fuel
  induction fuel with
  | zero => intro inp plan h; exact Option.noConfusion h
  | succ fuel ih =>
    intro inp plan h
    match inp with
    | [] => exact Option.noConfusion h
    | line :: rest =>
      match line with
      | .bad => exact ih rest plan h
      | .stint c l => exact ih rest plan h
      | .num n =>
        simp only [input_strategy] at h
        by_cases hn : n < 2
        · rw [if_pos hn] at h
          exact ih rest plan h
        · rw [if_neg hn] at h
          split at h
          next plan2 rest2 hr =>
            by_cases hs : (plan2.map (·.2)).sum = total
            · rw [if_pos hs] at h
              cases h
              constructor
              · have := read_stints_done_length rest n.toNat [] _ _ hr
                simp only [List.length_nil, Nat.zero_add] at this
                omega
              · exact read_stints_done_pos rest n.toNat [] _ _ (by simp) hr
            · rw [if_neg hs] at h
              exact ih rest2 plan h
          next rest2 hr => exact ih rest2 plan h
          next hr => exact Option.noConfusion h

lemma averages_lookup (lap_data : List LapRecord) (code : String)
    (strategy : List (String × Int)) (c : String) (l : Int) (hmem : (c, l) ∈ strategy) :
    (calculate_driver_averages lap_data strategy code).lookup (str_upper c) =
      some (compound_average lap_data code (str_upper c)) := by
  induction strategy with
  | nil => cases hmem
  | cons s tail ih =>
    show List.lookup (str_upper c)
      ((str_upper s.1, compound_average lap_data code (str_upper s.1)) ::
        calculate_driver_averages lap_data tail code) = _
    show (match str_upper c == str_upper s.1 with
      | true => some (compound_average lap_data code (str_upper s.1))
      | false => List.lookup (str_upper c) (calculate_driver_averages lap_data tail code)) = _
    by_cases hkey : (str_upper c == str_upper s.1) = true
    · rw [hkey, eq_of_beq hkey]
    · rw [Bool.not_eq_true] at hkey
      rw [hkey]
      rcases List.mem_cons.1 hmem with heq | hmem2
      · exfalso
        rw [show s.1 = c from congrArg Prod.fst heq.symm, beq_self_eq_true] at hkey
        exact Bool.noConfusion hkey
      · exact ih hmem2

/-- C1 counterexample: on `C1data`, driver VER has zero MEDIUM laps,
VER's own mean over all their laps is 80 s, yet the baseline stored for
MEDIUM is 90 s — the mean over the whole lap table of all drivers —
refuting the claim that the fallback is the driver's own mean. -/
theorem C1_counterexample :
    driver_compound_laps C1data "VER" "MEDIUM" = [] ∧
    (calculate_driver_averages C1data C1strat "VER").lookup "MEDIUM" = some (some 90) ∧
    series_mean ((C1data.filter (fun r => r.driver == "VER")).map (·.lapTime)) = some 80 ∧
    (90 : ℚ) ≠ 80 := by
  refine ⟨?_, ?_, ?_, by norm_num⟩
  · with_unfolding_all rfl
  · with_unfolding_all rfl
  · with_unfolding_all rfl

/-- C1 amended: for every driver and every compound appearing in the
strategy plan, if the driver has zero completed laps on that compound,
the baseline stored for that compound equals the arithmetic mean over
the lap times of the *whole* lap table (all drivers), i.e. the field
mean — not the driver's own mean. -/
theorem C1_fallback_is_field_mean (lap_data : List LapRecord)
    (strategy : List (String × Int)) (code c : String) (l : Int)
    (hmem : (c, l) ∈ strategy)
    (hempty : driver_compound_laps lap_data code (str_upper c) = []) :
    (calculate_driver_averages lap_data strategy code).lookup (str_upper c) =
      some (series_mean (lap_data.map (·.lapTime))) := by
  rw [averages_lookup lap_data code strategy c l hmem]
  unfold compound_average
  rw [hempty]
  simp

/-- Witness for the amended C1: on `C1data`, the MEDIUM baseline for
VER is the field mean of the whole lap table. -/
theorem C1_fallback_is_field_mean_witness :
    (calculate_driver_averages C1data C1strat "VER").lookup (str_upper "MEDIUM") =
      some (series_mean (C1data.map (·.lapTime))) :=
  C1_fallback_is_field_mean C1data C1strat "VER" "MEDIUM" 3
    (by decide) (by with_unfolding_all rfl)

/-- C2: for every entered strategy plan (a stint count of at least 2
followed by that many well-formed stint lines with positive lap counts,
which is the only way stints get entered), the condition
`sum(lap_counts) == total_laps` is necessary and sufficient for
acceptance: the attempt is accepted (with compounds upper-cased) exactly
when the sum matches, a mismatching attempt restarts `input_strategy` on
the remaining input (the whole plan is re-entered), and any accepted
plan whatsoever has a lap sum equal to the race length. -/
theorem C2_sum_iff_accepted (total : Int) (fuel : Nat) (n : Int)
    (plan : List (String × Int)) (rest : List UserLine)
    (hn : 2 ≤ n) (hlen : plan.length = n.toNat) (hpos : ∀ s ∈ plan, 0 < s.2) :
    (input_strategy total (fuel + 1) (UserLine.num n :: (stint_lines plan ++ rest)) =
      if (plan.map (·.2)).sum = total then some (upper_plan plan)
      else input_strategy total fuel rest) ∧
    (∀ (fuel2 : Nat) (inp : List UserLine) (accepted : List (String × Int)),
      input_strategy total fuel2 inp = some accepted →
      (accepted.map (·.2)).sum = total) := by
  constructor
  · have hclean := read_stints_clean plan [] rest hpos
    simp only [input_strategy]
    rw [if_neg (by omega)]
    rw [← hlen, hclean]
    simp only [List.nil_append]
    rw [upper_plan_sum]
  · exact fun fuel2 inp accepted h => input_strategy_sum total fuel2 inp accepted h

/-- Witness for C2: on a 5-lap race, the plan Soft 2 / Medium 3 (sum 5)
is accepted as entered; the same plan on a 4-lap race is rejected and
the interpreter is back at the stint-count prompt on the remaining
input. -/
theorem C2_sum_iff_accepted_witness :
    input_strategy 5 1 (UserLine.num 2 :: (stint_lines [("Soft", 2), ("Medium", 3)] ++ [])) =
      some (upper_plan [("Soft", 2), ("Medium", 3)]) ∧
    input_strategy 4 1 (UserLine.num 2 :: (stint_lines [("Soft", 2), ("Medium", 3)] ++ [])) =
      input_strategy 4 0 [] := by
  have h5 := (C2_sum_iff_accepted 5 0 2 [("Soft", 2), ("Medium", 3)] []
    (by decide) (by decide) (by decide)).1
  have h4 := (C2_sum_iff_accepted 4 0 2 [("Soft", 2), ("Medium", 3)] []
    (by decide) (by decide) (by decide)).1
  rw [if_pos (by decide)] at h5
  rw [if_neg (by decide)] at h4
  exact ⟨h5, h4⟩

/-- C9: every plan `input_strategy` accepts has at least 2 stints and
only strictly positive per-stint lap counts, over and above the
lap-sum condition; a single-stint plan or one with a non-positive lap
count is never accepted. -/
theorem C9_accepted_plan_invariants (total : Int) (fuel : Nat) (inp : List UserLine)
    (plan : List (String × Int)) (h : input_strategy total fuel inp = some plan) :
    2 ≤ plan.length ∧ ∀ s ∈ plan, 0 < s.2 :=
  input_strategy_shape total fuel inp plan h

/-- Witness for C9: a concrete accepted run (Hard 4 / Soft 6 on a
10-lap race) whose plan satisfies both invariants. -/
theorem C9_accepted_plan_invariants_witness :
    2 ≤ ([("HARD", (4 : Int)), ("SOFT", 6)] : List (String × Int)).length ∧
    ∀ s ∈ ([("HARD", (4 : Int)), ("SOFT", 6)] : List (String × Int)), 0 < s.2 :=
  C9_accepted_plan_invariants 10 1
    [UserLine.num 2, UserLine.stint "Hard" 4, UserLine.stint "Soft" 6]
    [("HARD", 4), ("SOFT", 6)] (by decide)

/-- C3 (code bug): the compound token is *not* validated at strategy
entry.  A plan containing the unknown compound "Banana" is accepted by
`input_strategy` (its lap counts sum to the 5-lap race length) and
propagates into `simulate_lap_times` — where the compound-factor dict
lookup misses, which in Python raises an uncaught `KeyError` crash
instead of the entry-time rejection the claim requires. -/
theorem C3_unknown_compound_accepted_then_crash :
    input_strategy 5 1 (UserLine.num 2 :: stint_lines [("Banana", 2), ("Soft", 3)]) =
      some [("BANANA", 2), ("SOFT", 3)] ∧
    simulate_lap_times C3data 5 [("BANANA", 2), ("SOFT", 3)] "VER" (fun _ => 0) =
      SimOut.keyError "BANANA" := by
  constructor
  · decide
  · with_unfolding_all rfl

/-- C7: a driver whose lap-record count differs from the race's total
lap count is refused by `run_simulation` before the strategy prompt and
before any sampling (outcome `didNotFinish`, which carries no plan and
no lap times), and `simulate_lap_times` itself returns the empty list
for such a driver. -/
theorem C7_completion_gate (lap_data : List LapRecord) (code : String)
    (inp : List UserLine) (fuel : Nat) (draws : Nat → ℚ)
    (strategy : List (String × Int))
    (h : did_driver_finish lap_data (total_laps lap_data) code = false) :
    run_simulation true (some code) lap_data inp fuel draws = RunOutcome.didNotFinish ∧
    simulate_lap_times lap_data (total_laps lap_data) strategy code draws = SimOut.ok [] := by
  constructor
  · simp [run_simulation, h]
  · simp [simulate_lap_times, h]

/-- Witness for C7: on `C7data` (a 3-lap race), driver DNF with 2 lap
records is refused and produces no simulated lap times. -/
theorem C7_completion_gate_witness :
    run_simulation true (some "DNF") C7data [] 0 (fun _ => 0) = RunOutcome.didNotFinish ∧
    simulate_lap_times C7data (total_laps C7data) [("SOFT", 3)] "DNF" (fun _ => 0) =
      SimOut.ok [] :=
  ⟨(C7_completion_gate C7data "DNF" [] 0 (fun _ => 0) [("SOFT", 3)] (by decide)).1,
   (C7_completion_gate C7data "DNF" [] 0 (fun _ => 0) [("SOFT", 3)] (by decide)).2⟩

lemma foldr_max_mem (l : List Nat) (h : l ≠ []) : l.foldr max 0 ∈ l := by
  induction l with
  | nil => cases h rfl
  | cons x xs ih =>
    match xs, ih with
    | [], _ =>
      simp
    | y :: ys, ih =>
      have hfold : (x :: y :: ys).foldr max 0 = max x ((y :: ys).foldr max 0) := rfl
      rcases max_choice x ((y :: ys).foldr max 0) with hm | hm
      · rw [hfold, hm]
        exact List.mem_cons_self _ _
      · rw [hfold, hm]
        exact List.mem_cons_of_mem _ (ih (by simp))

/-- C10: the race length is `total_laps`, the maximum `LapNumber` over
the whole lap table (the very value `run_simulation` feeds to both the
strategy validation and the completion gate); for a nonempty lap table,
some record attains it, and any driver whose lap numbers are exactly
`1..total_laps` (one record per lap) passes the completion gate. -/
theorem C10_race_length_is_max_lap (lap_data : List LapRecord) (h : lap_data ≠ []) :
    (∃ r ∈ lap_data, r.lapNumber = total_laps lap_data) ∧
    ∀ d : String,
      ((lap_data.filter (fun r => r.driver == d)).map (·.lapNumber)).Perm
        (List.range' 1 (total_laps lap_data)) →
      did_driver_finish lap_data (total_laps lap_data) d = true := by
  constructor
  · have hne : lap_data.map (·.lapNumber) ≠ [] := by
      simpa using h
    have hmem := foldr_max_mem (lap_data.map (·.lapNumber)) hne
    rcases List.mem_map.1 hmem with ⟨r, hr, hrn⟩
    exact ⟨r, hr, hrn⟩
  · intro d hperm
    have hlen := hperm.length_eq
    rw [List.length_map, List.length_range'] at hlen
    simp only [did_driver_finish]
    rw [hlen]
    exact beq_self_eq_true _

/-- Witness for C10: on `C7data`, lap 3 is attained and driver WIN
(records on laps 1, 2, 3) passes the gate. -/
theorem C10_race_length_is_max_lap_witness :
    (∃ r ∈ C7data, r.lapNumber = total_laps C7data) ∧
    did_driver_finish C7data (total_laps C7data) "WIN" = true :=
  ⟨(C10_race_length_is_max_lap C7data (by decide)).1,
   (C10_race_length_is_max_lap C7data (by decide)).2 "WIN" (by decide)⟩

/-- C5: in a results table whose winner (first row at position 1) has a
parseable elapsed time `T`, `get_driver_race_time` returns `T` for the
winner, and `T + g` for any other present driver with parseable
recorded gap `g`. -/
theorem C5_actual_race_time (results : List ResultRow) (w d : ResultRow)
    (rest1 rest2 : List ResultRow) (code : String) (T g : ℚ)
    (hw : results.filter (fun r => r.position == 1) = w :: rest1)
    (hT : w.time = some T)
    (hd : results.filter (fun r => r.abbreviation == code) = d :: rest2)
    (hg : d.time = some g)
    (hne : code ≠ w.abbreviation) :
    get_driver_race_time results w.abbreviation = RaceTimeRes.ok T ∧
    get_driver_race_time results code = RaceTimeRes.ok (T + g) := by
  have hwt : get_winner_race_time results = some T := by
    unfold get_winner_race_time
    rw [hw]
    exact hT
  constructor
  · unfold get_driver_race_time
    rw [hw, hwt]
    simp
  · unfold get_driver_race_time
    rw [hw, hwt, hd]
    simp [hne, hg]

/-- Witness for C5, the spec's scenario: winner HAM at 1:30:00.000
(5400 s), VER's gap +12.345 s, so VER's actual time is 5412.345 s. -/
theorem C5_actual_race_time_witness :
    get_driver_race_time C5results "HAM" = RaceTimeRes.ok 5400 ∧
    get_driver_race_time C5results "VER" = RaceTimeRes.ok (5400 + 12.345) :=
  C5_actual_race_time C5results ⟨"HAM", 1, some 5400⟩ ⟨"VER", 2, some 12.345⟩
    [] [] "VER" 5400 12.345 (by with_unfolding_all rfl) rfl
    (by with_unfolding_all rfl) rfl (by decide)

/-- C6 (code bug): on a results table with no position-1 row,
`get_driver_race_time` hits `.iloc[0]` on an empty selection before any
guard — an uncaught `IndexError` crash rather than a reported failure —
even though its own helper `get_winner_race_time` handles the same
table gracefully. -/
theorem C6_no_winner_row_crashes :
    get_driver_race_time C6results "VER" = RaceTimeRes.crash ∧
    get_winner_race_time C6results = none := by
  constructor
  · decide
  · decide

lemma simulate_stints_ok_length (strategy : List (String × Int)) :
    ∀ (avgs : List (String × Option ℚ)) (draws : Nat → ℚ) (idx : Nat) (times : List ℚ),
      simulate_stints avgs strategy draws idx = SimOut.ok times →
      times.length = (strategy.map (fun s => s.2.toNat)).sum := by
  induction strategy with
  | nil =>
    intro avgs draws idx times h
    simp only [simulate_stints] at h
    cases h
    rfl
  | cons s rest ih =>
    intro avgs draws idx times h
    obtain ⟨c, laps⟩ := s
    simp only [simulate_stints] at h
    split at h
    next bOpt hlk =>
      split at h
      next hf => exact SimOut.noConfusion h
      next f hf =>
        split at h
        next => exact SimOut.noConfusion h
        next b hb =>
          split at h
          next ts hts =>
            cases h
            rw [List.length_append, ih avgs draws (idx + laps.toNat) ts hts]
            simp [simulate_stint_laps]
          next c2 hts => exact SimOut.noConfusion h
          next hts => exact SimOut.noConfusion h
    next hlk =>
      split at h
      next ts hts =>
        cases h
        rw [List.length_append, ih avgs draws (idx + laps.toNat) ts hts]
        simp
      next c2 hts => exact SimOut.noConfusion h
      next hts => exact SimOut.noConfusion h

/-- C4: (1) a lap sampled with baseline `b > 0`, factor `f`, and a
uniform draw `u` in the closed-open range `[-0.005, 0.005)` equals
`b·f + u·b`, which lies in `[b·f - 0.005·b, b·f + 0.005·b)`;
(2) a successful simulation yields exactly one duration per individual
planned lap (its length is the plan's lap total);
(3) within a stint starting at draw index `idx`, lap `j` consumes the
fresh stream index `idx + j` — a new sample per lap, not one per
stint. -/
theorem C4_per_lap_sampling :
    (∀ b f u : ℚ, 0 < b → -0.005 ≤ u → u < 0.005 →
      b * f - 0.005 * b ≤ lap_time_with_deviation b f (u * b) ∧
      lap_time_with_deviation b f (u * b) < b * f + 0.005 * b) ∧
    (∀ (avgs : List (String × Option ℚ)) (strategy : List (String × Int))
      (draws : Nat → ℚ) (idx : Nat) (times : List ℚ),
      simulate_stints avgs strategy draws idx = SimOut.ok times →
      times.length = (strategy.map (fun s => s.2.toNat)).sum) ∧
    (∀ (b f : ℚ) (laps : Nat) (draws : Nat → ℚ) (idx j : Nat)
      (h : j < (simulate_stint_laps b f laps draws idx).length),
      (simulate_stint_laps b f laps draws idx).get ⟨j, h⟩ =
        lap_time_with_deviation b f (draws (idx + j) * b)) := by
  refine ⟨?_, ?_, ?_⟩
  · intro b f u hb h1 h2
    unfold lap_time_with_deviation
    constructor
    · nlinarith
    · nlinarith
  · exact fun avgs strategy draws idx times h =>
      simulate_stints_ok_length strategy avgs draws idx times h
  · intro b f laps draws idx j h
    simp [simulate_stint_laps, List.get_eq_getElem, List.getElem_map, List.getElem_range]

/-- Witness for C4 at concrete inputs: a draw of `0.001` on baseline
100 and factor 1.018; a two-lap single-stint simulation producing two
durations; and lap 0 of a one-lap stint consuming draw index 0. -/
theorem C4_per_lap_sampling_witness :
    (100 * (1.018 : ℚ) - 0.005 * 100 ≤ lap_time_with_deviation 100 1.018 (0.001 * 100) ∧
      lap_time_with_deviation 100 1.018 (0.001 * 100) < 100 * 1.018 + 0.005 * 100) ∧
    ([80 * (1.018 : ℚ) + 0 * 80, 80 * 1.018 + 0 * 80] : List ℚ).length =
      (([("Soft", (2 : Int))] : List (String × Int)).map (fun s => s.2.toNat)).sum ∧
    (simulate_stint_laps 80 1.018 1 (fun _ => 0) 0).get
        ⟨0, by simp [simulate_stint_laps]⟩ =
      lap_time_with_deviation 80 1.018 (0 * 80) :=
  ⟨C4_per_lap_sampling.1 100 1.018 0.001 (by norm_num) (by norm_num) (by norm_num),
   C4_per_lap_sampling.2.1 [("SOFT", some 80)] [("Soft", 2)] (fun _ => 0) 0
     [80 * 1.018 + 0 * 80, 80 * 1.018 + 0 * 80] (by with_unfolding_all rfl),
   C4_per_lap_sampling.2.2 80 1.018 1 (fun _ => 0) 0 0 (by simp [simulate_stint_laps])⟩

/-- C8: the compound performance factor table is exactly SOFT 1.018,
MEDIUM 1.038, HARD 1.058, WET 1.098, INTERMEDIATE 1.078, and for any
case variant of a user-entered compound whose upper-cased form is
"HARD", the factor looked up in simulation (always on the upper-cased
form) is 1.058: a single-lap stint on it simulates to
`b·1.058 + draw·b`. -/
theorem C8_compound_factor_table :
    compound_performance_factor "SOFT" = some 1.018 ∧
    compound_performance_factor "MEDIUM" = some 1.038 ∧
    compound_performance_factor "HARD" = some 1.058 ∧
    compound_performance_factor "WET" = some 1.098 ∧
    compound_performance_factor "INTERMEDIATE" = some 1.078 ∧
    ∀ (c : String) (b : ℚ) (draws : Nat → ℚ),
      str_upper c = "HARD" →
      compound_performance_factor (str_upper c) = some 1.058 ∧
      simulate_stints [(str_upper c, some b)] [(c, 1)] draws 0 =
        SimOut.ok [lap_time_with_deviation b 1.058 (draws 0 * b)] := by
  refine ⟨rfl, rfl, rfl, rfl, rfl, ?_⟩
  intro c b draws hU
  constructor
  · rw [hU]
    rfl
  · simp only [simulate_stints]
    rw [hU]
    rfl

/-- Witness for C8: the lower-case entry "hard" upper-cases to "HARD"
and gets factor 1.058 in a concrete one-lap simulation. -/
theorem C8_compound_factor_table_witness :
    compound_performance_factor (str_upper "hard") = some 1.058 ∧
    simulate_stints [(str_upper "hard", some 80)] [("hard", 1)] (fun _ => 0) 0 =
      SimOut.ok [lap_time_with_deviation 80 1.058 (0 * 80)] :=
  C8_compound_factor_table.2.2.2.2.2 "hard" 80 (fun _ => 0) (by decide)

end F1Sim
